import Mathlib

/-
Verification of the license-monitor repository (new_task_project):
a shallow embedding of `license_monitor.py` and `fetch_license.py`.

Modelling conventions:
- Python strings are Lean `String` / `List Char`; the character classes of
  the `re` module (`\s`, `\d`, `\w`) and of `str.strip` / `str.splitlines`
  are modelled over their ASCII / Latin-1 members, which covers every
  character class test the program's regexes perform on tool output.
- The three `COUNT_PATTERNS` regexes and the fallback regex `\bin\s*use\b`
  use only these constructs: case-insensitive literals, `\s+`, `\s*`, `;?`,
  capturing `(\d+)`, lazy `.*?` (with DOTALL), and the word boundary `\b`.
  They are embedded as token lists interpreted by a deterministic matcher
  `matchToks`.  For these patterns, maximal-munch interpretation of `\s+`,
  `\s*` and `(\d+)` coincides with Python's backtracking priority, because
  in each pattern the token that follows such a repetition can never match
  a character of the repetition's class (`;?` and `.*?` are given their
  exact backtracking semantics).  `searchToks` implements `re.search`'s
  leftmost-match rule.
- Effects (subprocess spawning, the wall clock, the filesystem) are passed
  in explicitly as oracle arguments; the file contents of the CSV log are
  modelled as an optional list of rows of cells, abstracting byte-level
  CSV serialisation.
-/

set_option maxRecDepth 100000

namespace LicenseMonitor

/-- ASCII/Latin-1 whitespace, modelling both `\s` of the `re` module and the
characters stripped by `str.strip()`. -/
def isPySpace (c : Char) : Bool :=
  c == ' ' || c == '\t' || c == '\n' || c == '\r' || c == '\x0b' || c == '\x0c' ||
  c == '\x1c' || c == '\x1d' || c == '\x1e' || c == '\x1f' || c == '\x85' || c == '\xa0'

/-- ASCII decimal digit, modelling `\d`. -/
def isPyDigit (c : Char) : Bool :=
  '0' ≤ c && c ≤ '9'

/-- ASCII word character, modelling `\w` (used by the word boundary `\b`). -/
def isWordChar (c : Char) : Bool :=
  ('a' ≤ c && c ≤ 'z') || ('A' ≤ c && c ≤ 'Z') || isPyDigit c || c == '_'

/-- Word-character test on an optional context character; `none` (beginning
or end of the text) counts as a non-word position. -/
def isWordOpt : Option Char → Bool
  | none => false
  | some c => isWordChar c

/-- Numeric value of an ASCII digit. -/
def digitVal (c : Char) : Nat := c.toNat - 48

/-- Tokens of the regular expressions used by `license_monitor.py`.
`lit c` is a case-insensitive literal character (flag `re.I`); `ws1`/`ws0`
are `\s+`/`\s*`; `optSemi` is `;?`; `digits` is a capturing `(\d+)`;
`digAcc v` is the internal state of `digits` after some digits with value
`v` have been consumed; `lazyAny` is `.*?` under DOTALL (flag `re.S`);
`wordB` is the zero-width word boundary `\b`. -/
inductive Tok where
  | lit : Char → Tok
  | ws1 : Tok
  | ws0 : Tok
  | optSemi : Tok
  | digits : Tok
  | digAcc : Nat → Tok
  | lazyAny : Tok
  | wordB : Tok
deriving DecidableEq

/-- Fuel-indexed matcher.  Matches a token list at the beginning of `s`,
with `prev` the character just before `s` in the overall text (for `\b`).
Returns the list of captured `(\d+)` values, in order, if the whole token
list matches a prefix of `s`.  Every recursive call strictly decreases
`s.length + toks.length`, so `s.length + toks.length + 1` fuel always
suffices (see `matchToks`); the fuel only makes the recursion structural. -/
def matchF : Nat → List Tok → Option Char → List Char → Option (List Nat)
  | 0, _, _, _ => none
  | fuel + 1, toks, prev, s =>
    match toks, s with
    | [], _ => some []
    | Tok.lit c :: rest, x :: s' =>
        if x.toLower == c.toLower then matchF fuel rest (some x) s' else none
    | Tok.lit _ :: _, [] => none
    | Tok.ws1 :: rest, x :: s' =>
        if isPySpace x then matchF fuel (Tok.ws0 :: rest) (some x) s' else none
    | Tok.ws1 :: _, [] => none
    | Tok.ws0 :: rest, x :: s' =>
        if isPySpace x then matchF fuel (Tok.ws0 :: rest) (some x) s'
        else matchF fuel rest prev (x :: s')
    | Tok.ws0 :: rest, [] => matchF fuel rest prev []
    | Tok.optSemi :: rest, x :: s' =>
        if x == ';' then
          match matchF fuel rest (some x) s' with
          | some caps => some caps
          | none => matchF fuel rest prev (x :: s')
        else matchF fuel rest prev (x :: s')
    | Tok.optSemi :: rest, [] => matchF fuel rest prev []
    | Tok.digits :: rest, x :: s' =>
        if isPyDigit x then matchF fuel (Tok.digAcc (digitVal x) :: rest) (some x) s' else none
    | Tok.digits :: _, [] => none
    | Tok.digAcc v :: rest, x :: s' =>
        if isPyDigit x then matchF fuel (Tok.digAcc (10 * v + digitVal x) :: rest) (some x) s'
        else (matchF fuel rest prev (x :: s')).map (v :: ·)
    | Tok.digAcc v :: rest, [] => (matchF fuel rest prev []).map (v :: ·)
    | Tok.lazyAny :: rest, s =>
        match matchF fuel rest prev s with
        | some caps => some caps
        | none =>
          match s with
          | [] => none
          | x :: s' => matchF fuel (Tok.lazyAny :: rest) (some x) s'
    | Tok.wordB :: rest, s =>
        if isWordOpt prev != isWordOpt s.head? then matchF fuel rest prev s else none

/-- Match a token list at the beginning of `s` (with enough fuel). -/
def matchToks (toks : List Tok) (prev : Option Char) (s : List Char) : Option (List Nat) :=
  matchF (s.length + toks.length + 1) toks prev s

/-- Model of `re.Pattern.search`: try `matchToks` at every start position,
leftmost match first; `prev` is the character before the current position. -/
def searchToks (toks : List Tok) (prev : Option Char) (s : List Char) : Option (List Nat) :=
  match matchToks toks prev s with
  | some caps => some caps
  | none =>
    match s with
    | [] => none
    | x :: s' => searchToks toks (some x) s'

/-- Case-insensitive literal tokens for a word. -/
def lits (w : String) : List Tok := w.data.map Tok.lit

/-- First pattern of `COUNT_PATTERNS`:
`Total\s+of\s+(\d+)\s+licenses\s+issued;?\s*Total\s+of\s+(\d+)\s+licenses\s+in\s+use`. -/
def pat1 : List Tok :=
  lits "Total" ++ [Tok.ws1] ++ lits "of" ++ [Tok.ws1, Tok.digits, Tok.ws1] ++
  lits "licenses" ++ [Tok.ws1] ++ lits "issued" ++ [Tok.optSemi, Tok.ws0] ++
  lits "Total" ++ [Tok.ws1] ++ lits "of" ++ [Tok.ws1, Tok.digits, Tok.ws1] ++
  lits "licenses" ++ [Tok.ws1] ++ lits "in" ++ [Tok.ws1] ++ lits "use"

/-- Second pattern of `COUNT_PATTERNS`:
`Total\s+licenses\s*:\s*(\d+).*?In\s+use\s*:\s*(\d+)`. -/
def pat2 : List Tok :=
  lits "Total" ++ [Tok.ws1] ++ lits "licenses" ++
  [Tok.ws0, Tok.lit ':', Tok.ws0, Tok.digits, Tok.lazyAny] ++
  lits "In" ++ [Tok.ws1] ++ lits "use" ++ [Tok.ws0, Tok.lit ':', Tok.ws0, Tok.digits]

/-- Third pattern of `COUNT_PATTERNS`:
`Issued\s*=\s*(\d+).*?Used\s*=\s*(\d+)`. -/
def pat3 : List Tok :=
  lits "Issued" ++ [Tok.ws0, Tok.lit '=', Tok.ws0, Tok.digits, Tok.lazyAny] ++
  lits "Used" ++ [Tok.ws0, Tok.lit '=', Tok.ws0, Tok.digits]

/-- The ordered pattern list `COUNT_PATTERNS` of `license_monitor.py`. -/
def COUNT_PATTERNS : List (List Tok) := [pat1, pat2, pat3]

/-- The fallback regex `\bin\s*use\b` (case-insensitive). -/
def inUseRe : List Tok := [Tok.wordB] ++ lits "in" ++ [Tok.ws0] ++ lits "use" ++ [Tok.wordB]

/-- Line-boundary characters of Python `str.splitlines`. -/
def isLineBreak (c : Char) : Bool :=
  c == '\n' || c == '\r' || c == '\x0b' || c == '\x0c' ||
  c == '\x1c' || c == '\x1d' || c == '\x1e' || c == '\x85' ||
  c == '\u2028' || c == '\u2029'

/-- Worker for `pySplitlines`: `cur` holds the current line reversed.
A terminal line boundary does not produce a trailing empty line. -/
def slGo (cur : List Char) : List Char → List (List Char)
  | [] => [cur.reverse]
  | '\r' :: '\n' :: [] => [cur.reverse]
  | '\r' :: '\n' :: rest => cur.reverse :: slGo [] rest
  | c :: [] => if isLineBreak c then [cur.reverse] else [(c :: cur).reverse]
  | c :: rest => if isLineBreak c then cur.reverse :: slGo [] rest else slGo (c :: cur) rest

/-- Model of Python `str.splitlines()`: `""` gives no lines, `\r\n` is a
single boundary, and a terminal boundary adds no empty line. -/
def pySplitlines : List Char → List (List Char)
  | [] => []
  | c :: rest => slGo [] (c :: rest)

/-- Model of Python `str.strip()` on a character list. -/
def pyStripL (l : List Char) : List Char :=
  ((l.dropWhile isPySpace).reverse.dropWhile isPySpace).reverse

/-- Model of Python `str.strip()`. -/
def pyStrip (s : String) : String := ⟨pyStripL s.data⟩

/-- Fallback heuristic of `parse_usage` (lines 90-91): strip each line of
the output and count the lines on which `re.search(r"\bin\s*use\b", l, re.I)`
finds a match. -/
def used_guess (output : String) : Nat :=
  ((pySplitlines output.data).map pyStripL).countP (fun l => (searchToks inUseRe none l).isSome)

/-- First pattern in the ordered list whose `search` succeeds, returning its
captures (the `for pat in COUNT_PATTERNS` loop of `parse_usage`). -/
def firstMatch : List (List Tok) → List Char → Option (List Nat)
  | [], _ => none
  | p :: ps, s =>
    match searchToks p none s with
    | some caps => some caps
    | none => firstMatch ps s

/-- Model of `parse_usage` (lines 78-94): try each pattern of
`COUNT_PATTERNS` in order and return its two captured integers
(`int(m.group(1))`, `int(m.group(2))`); otherwise fall back to counting
"in use" lines; otherwise `(None, None)`. -/
def parse_usage (output : String) : Option Nat × Option Nat :=
  match firstMatch COUNT_PATTERNS output.data with
  | some caps => (caps[0]?, caps[1]?)
  | none =>
    if 0 < used_guess output then (none, some (used_guess output))
    else (none, none)

/-- Decimal digit character for a value below ten (`str` of one digit). -/
def digChar : Nat → Char
  | 0 => '0' | 1 => '1' | 2 => '2' | 3 => '3' | 4 => '4'
  | 5 => '5' | 6 => '6' | 7 => '7' | 8 => '8' | _ => '9'

/-- Fuel-indexed decimal digits of a natural number, most significant first.
Fuel `n + 1` always suffices since `n / 10 < n` for `10 ≤ n`. -/
def natDigs : Nat → Nat → List Char
  | 0, _ => []
  | fuel + 1, n =>
    if n < 10 then [digChar n] else natDigs fuel (n / 10) ++ [digChar (n % 10)]

/-- Model of Python `str` on a non-negative integer. -/
def natRepr (n : Nat) : String := ⟨natDigs (n + 1) n⟩

/-- Model of Python `str` on an integer (possibly negative). -/
def intRepr (i : Int) : String :=
  if i < 0 then "-" ++ natRepr i.natAbs else natRepr i.natAbs

/-- Outcome of the `subprocess.run` invocation inside `run_ckout`: either a
completed process (with its `returncode`, `stdout`, `stderr`, the latter two
possibly `None`, guarded by `or ""` in the source) or a raised exception
with its type name and message.  Process spawning itself is the external
subprocess boundary and is passed in as an oracle. -/
inductive ExecOutcome where
  | ok : Int → Option String → Option String → ExecOutcome
  | exn : String → String → ExecOutcome
deriving DecidableEq

/-- Model of `run_ckout` (lines 44-75): run the license command and return
`(returncode, stdout or "", stderr or "")`; any exception `e` (timeout,
missing executable, spawn error) is caught and represented as
`(1, "", exception type name, a colon-space, and the message)` — it is never re-raised, which the
embedding reflects by being a total function.  The command construction
from `LICENSE_CHECK_CMD` / `LICENSE_CMD` (lines 55-67) only feeds the
spawned process and is absorbed into the `spawn` oracle. -/
def run_ckout (feature : String) (timeout : Nat) (spawn : String → Nat → ExecOutcome) :
    Int × String × String :=
  match spawn feature timeout with
  | ExecOutcome.ok rc out err => (rc, out.getD "", err.getD "")
  | ExecOutcome.exn en em => (1, "", en ++ ": " ++ em)

/-- One usage record assembled by `gather` (the dict of lines 194-203). -/
structure UsageRow where
  feature : String
  total : Option Nat
  used : Option Nat
  unused : Option Int
  timestamp : String
  rc : Int
  stderr : String
  raw : String
deriving DecidableEq

/-- Worker for `gather`: `i` counts the `run_ckout` invocations already
made, so that the `spawn` oracle can give each poll an independent result
(duplicated feature names are polled independently). -/
def gatherAux (spawn : Nat → String → Nat → ExecOutcome) (now : String) :
    Nat → List String → List UsageRow
  | _, [] => []
  | i, feat :: rest =>
    let (rc, out, err) := run_ckout feat 30 (spawn i)
    let (total, used) := parse_usage out
    let unused : Option Int :=
      match total, used with
      | some t, some u => some ((t : Int) - (u : Int))
      | _, _ => none
    { feature := feat, total := total, used := used, unused := unused,
      timestamp := now, rc := rc, stderr := pyStrip err, raw := pyStrip out } ::
      gatherAux spawn now (i + 1) rest

/-- Model of `gather` (lines 187-204): one timestamp is sampled from the
`clock` oracle before the loop (`now = dt.datetime.now().strftime(...)`),
then each feature is polled in order with the default 30-second timeout. -/
def gather (spawn : Nat → String → Nat → ExecOutcome) (clock : Nat → String)
    (features : List String) : List UsageRow :=
  gatherAux spawn (clock 0) 0 features

/-- Replacement text of one character under Python `html.escape(s)` (with
its default `quote=True`).  The sequential `str.replace` calls of
`html.escape` — `&` first, then `<`, `>`, `"`, `'` — never rewrite a
character introduced by an earlier replacement, so the function acts
independently on each character of the original string. -/
def escChar (c : Char) : List Char :=
  if c == '&' then "&amp;".data
  else if c == '<' then "&lt;".data
  else if c == '>' then "&gt;".data
  else if c == '"' then "&quot;".data
  else if c == '\'' then "&#x27;".data
  else [c]

/-- Model of Python `html.escape` with `quote=True`. -/
def htmlEscape (s : String) : String := ⟨(s.data.map escChar).flatten⟩

/-- Status classification of `render_html` (lines 145-156), as the pair
(CSS class, status text), in the source's evaluation order. -/
def statusOf (total used : Option Nat) : String × String :=
  match total, used with
  | none, _ => ("status-warn", "Unknown parse")
  | _, none => ("status-warn", "Unknown parse")
  | some t, some u =>
    if u < t then ("status-ok", "OK")
    else if u = t then ("status-err", "Fully used")
    else ("status-warn", "Over-reported")

/-- Status classification of `print_table` in `fetch_license.py`
(lines 37-44). -/
def fetchStatus (total used : Option Nat) : String :=
  match total, used with
  | none, _ => "Unknown parse"
  | _, none => "Unknown parse"
  | some t, some u =>
    if u < t then "OK"
    else if u = t then "Fully used"
    else "Over-reported"

/-- Display string of an optional count in the report: `str(v)` or `"?"`
(lines 140-141). -/
def dispN : Option Nat → String
  | some v => natRepr v
  | none => "?"

/-- Display string of the derived `unused` value (line 142); the source's
conditional yields `"?"` for `None` whether or not `total` is known, and
the embedding keeps that redundant branch. -/
def dispUnused (unused : Option Int) (total : Option Nat) : String :=
  match unused with
  | some v => intRepr v
  | none => if total.isSome then "?" else "?"

/-- One `<tr>` block of the report body (the f-string of lines 158-166). -/
def rowHtml (r : UsageRow) : String :=
  "<tr>\n  <td>" ++ htmlEscape r.feature ++
  "</td>\n  <td>" ++ dispN r.used ++
  "</td>\n  <td>" ++ dispUnused r.unused r.total ++
  "</td>\n  <td>" ++ dispN r.total ++
  "</td>\n  <td>" ++ htmlEscape r.timestamp ++
  "</td>\n  <td class=\"" ++ (statusOf r.total r.used).1 ++ "\">" ++
  (statusOf r.total r.used).2 ++ "</td>\n</tr>\n"

/-- Literal text of the `head` f-string before the first escaped-title
insertion (lines 99-104). -/
def headPre : String :=
  "<!doctype html>\n<html>\n<head>\n<meta charset=\"utf-8\">\n" ++
  "<meta http-equiv=\"refresh\" content=\"300\">\n<title>"

/-- Literal text of the `head` f-string between its two title insertions
(lines 104-117); the doubled braces of the f-string render as single CSS
braces. -/
def headMid : String :=
  "</title>\n<style>\nbody \x7b font-family: Arial, sans-serif; margin: 20px; \x7d\n" ++
  "table \x7b border-collapse: collapse; width: 100%; max-width: 1000px; \x7d\n" ++
  "th, td \x7b border: 1px solid #ccc; padding: 8px; text-align: left; \x7d\n" ++
  "th \x7b background: #f7f7f7; \x7d\n" ++
  ".status-ok \x7b color: #0a7a0a; font-weight: 600; \x7d\n" ++
  ".status-warn \x7b color: #cc7a00; font-weight: 600; \x7d\n" ++
  ".status-err \x7b color: #b00020; font-weight: 600; \x7d\n" ++
  ".small \x7b color: #666; font-size: 12px; \x7d\n</style>\n</head>\n<body>\n<h2>"

/-- Literal text of the `head` f-string after the second title insertion
(line 117). -/
def headEnd : String := "</h2>\n"

/-- Document prologue of the report (the `head` f-string, lines 99-118). -/
def htmlHead (title : String) : String :=
  headPre ++ htmlEscape title ++ headMid ++ htmlEscape title ++ headEnd

/-- Table header of the report (lines 119-131). -/
def tableHeader : String :=
  "<table>\n<thead>\n<tr>\n  <th>Feature</th>\n  <th>Used</th>\n  <th>Unused</th>\n" ++
  "  <th>Total</th>\n  <th>Last Updated</th>\n  <th>Status</th>\n</tr>\n</thead>\n<tbody>\n"

/-- Table footer of the report (line 167). -/
def tableFooter : String := "</tbody>\n</table>\n"

/-- Page footer of the report (line 168). -/
def pageFooter : String :=
  "<p class=\"small\">Auto-refreshes every 5 minutes. " ++
  "Adjust parsing rules in the script if needed.</p>\n</body>\n</html>\n"

/-- Model of Python `"".join` on a list of strings. -/
def strJoin : List String → String
  | [] => ""
  | s :: rest => s ++ strJoin rest

/-- Model of `render_html` (lines 97-169). -/
def render_html (rows : List UsageRow) (title : String) : String :=
  htmlHead title ++ tableHeader ++ strJoin (rows.map rowHtml) ++ tableFooter ++ pageFooter

/-- Contents of the CSV log, as rows of cells; `none` models a path on
which no file exists yet.  Byte-level CSV serialisation is abstracted:
`csv.writer.writerow` writes one row, rendering `None` as an empty cell. -/
abbrev CsvFile := List (List String)

/-- CSV cell for an optional count: `None` is written as the empty string. -/
def csvCellN : Option Nat → String
  | none => ""
  | some v => natRepr v

/-- CSV cell for the optional `unused` value. -/
def csvCellI : Option Int → String
  | none => ""
  | some v => intRepr v

/-- The header row written by `ensure_csv_header` (line 176). -/
def csvHeaderRow : List String := ["timestamp", "feature", "used", "unused", "total"]

/-- Model of `ensure_csv_header` (lines 172-176): if the log file does not
exist, create it with the fixed header row; otherwise leave it unchanged. -/
def ensure_csv_header : Option CsvFile → CsvFile
  | none => [csvHeaderRow]
  | some f => f

/-- The CSV row written for one record (line 184). -/
def rowOf (r : UsageRow) : List String :=
  [r.timestamp, r.feature, csvCellN r.used, csvCellI r.unused, csvCellN r.total]

/-- Model of `append_csv` (lines 179-184): ensure the header, then open the
log in append mode and add one row per record, in order. -/
def append_csv (fs : Option CsvFile) (rows : List UsageRow) : CsvFile :=
  ensure_csv_header fs ++ rows.map rowOf

/-- Oracle used by concrete `gather` witnesses: a successful run whose
output matches the third pattern with total 10 and used 4. -/
def spawnA : Nat → String → Nat → ExecOutcome :=
  fun _ _ _ => ExecOutcome.ok 0 (some "Issued=10 Used=4") (some "")

/-- Constant clock oracle for concrete `gather` witnesses. -/
def clockT : Nat → String := fun _ => "2024-01-01 00:00:00"

/-- The record `gather spawnA clockT ["F"]` produces. -/
def recA : UsageRow :=
  { feature := "F", total := some 10, used := some 4, unused := some 6,
    timestamp := "2024-01-01 00:00:00", rc := 0, stderr := "", raw := "Issued=10 Used=4" }

/-- Oracle for the C8 witness: over-reported usage. -/
def spawnB : Nat → String → Nat → ExecOutcome :=
  fun _ _ _ => ExecOutcome.ok 0 (some "Issued=5 Used=10") (some "")

/-- The record `gather spawnB clockT ["F"]` produces. -/
def recB : UsageRow :=
  { feature := "F", total := some 5, used := some 10, unused := some (-5),
    timestamp := "2024-01-01 00:00:00", rc := 0, stderr := "", raw := "Issued=5 Used=10" }

/-- Capturing tokens: a successful match contributes one captured integer
per `digits` (or in-progress `digAcc`) token. -/
def isCapTok : Tok → Bool
  | Tok.digits => true
  | Tok.digAcc _ => true
  | _ => false

/-- Number of capturing groups in a token list. -/
def countCaps (toks : List Tok) : Nat := toks.countP isCapTok

/-- Boolean test: the first list is an initial segment of the second. -/
def isPre : List Char → List Char → Bool
  | [], _ => true
  | _ :: _, [] => false
  | a :: as, b :: bs => a == b && isPre as bs

/-- Boolean test: `pat` occurs as a contiguous substring of `l`. -/
def hasSub (pat : List Char) : List Char → Bool
  | [] => isPre pat []
  | l@(_ :: t) => isPre pat l || hasSub pat t

/-- No nonempty suffix of `a` is an initial segment of `pat` and `pat` is
an initial segment of no nonempty suffix of `a`: then no occurrence of
`pat` can begin inside `a`, wherever `a` is embedded. -/
def safePiece (pat : List Char) : List Char → Bool
  | [] => true
  | a@(_ :: t) => !isPre pat a && !isPre a pat && safePiece pat t

/-- The escaped `<script>` probe of claim C9. -/
def scriptTag : List Char := "<script>".data

/-! Helper lemmas about `gather`. -/

/-- Every record produced by `gatherAux` carries the shared timestamp and an
`unused` field derived from its own `total` and `used` fields. -/
theorem gatherAux_mem_spec (spawn : Nat → String → Nat → ExecOutcome) (now : String) :
    ∀ (i : Nat) (feats : List String) (r : UsageRow), r ∈ gatherAux spawn now i feats →
      r.timestamp = now ∧
      r.unused = (match r.total, r.used with
        | some t, some u => some ((t : Int) - (u : Int))
        | _, _ => none) := by
  intro i feats
  induction feats generalizing i with
  | nil => intro r h; simp [gatherAux] at h
  | cons feat rest ih =>
    intro r h
    simp only [gatherAux, List.mem_cons] at h
    rcases h with h | h
    · subst h
      exact ⟨rfl, rfl⟩
    · exact ih (i + 1) r h

/-- `gatherAux` produces one record per feature, in order. -/
theorem gatherAux_map_feature (spawn : Nat → String → Nat → ExecOutcome) (now : String) :
    ∀ (i : Nat) (feats : List String),
      (gatherAux spawn now i feats).map (fun r => r.feature) = feats := by
  intro i feats
  induction feats generalizing i with
  | nil => rfl
  | cons feat rest ih => simp [gatherAux, ih]

/-- Every record of `gatherAux` carries timestamp `now`, as a `map` fact. -/
theorem gatherAux_map_timestamp (spawn : Nat → String → Nat → ExecOutcome) (now : String) :
    ∀ (i : Nat) (feats : List String),
      (gatherAux spawn now i feats).map (fun r => r.timestamp) =
        List.replicate feats.length now := by
  intro i feats
  induction feats generalizing i with
  | nil => rfl
  | cons feat rest ih => simp [gatherAux, ih, List.replicate_succ]

/-! Claim theorems C3 to C8. -/

/-- C3: for every record produced by `gather`, the `unused` field equals
`total - used` whenever both `total` and `used` are known, and is unknown
whenever either is unknown; it is never independently set (it is a function
of the record's own `total` and `used`). -/
theorem gather_unused_derived (spawn : Nat → String → Nat → ExecOutcome)
    (clock : Nat → String) (feats : List String) (r : UsageRow)
    (h : r ∈ gather spawn clock feats) :
    r.unused = (match r.total, r.used with
      | some t, some u => some ((t : Int) - (u : Int))
      | _, _ => none) :=
  (gatherAux_mem_spec spawn (clock 0) 0 feats r h).2


/-- Witness for C3 at a concrete polling round. -/
theorem gather_unused_derived_witness :
    recA.unused = (match recA.total, recA.used with
      | some t, some u => some ((t : Int) - (u : Int))
      | _, _ => none) :=
  gather_unused_derived spawnA clockT ["F"] recA (by decide)

/-- C4: the status of a record is a pure function of `(total, used)`,
evaluated in the order: unknown parse, `used < total`, `used == total`,
`used > total` — and the HTML renderer's classification (`statusOf`, from
`render_html`) agrees with the console table printer's (`fetchStatus`, from
`print_table` in `fetch_license.py`). -/
theorem status_pure_of_total_used (total used : Option Nat) :
    fetchStatus total used = (statusOf total used).2 ∧
    (statusOf total used).2 =
      (if total.isNone || used.isNone then "Unknown parse"
       else if used.getD 0 < total.getD 0 then "OK"
       else if used.getD 0 = total.getD 0 then "Fully used"
       else "Over-reported") := by
  cases total <;> cases used <;> simp [fetchStatus, statusOf]
  constructor <;> split_ifs <;> rfl

/-- C5: for every feature name and timeout, `run_ckout` never propagates an
invocation failure (it is a total function of the spawn outcome); when the
invocation raises (timeout, missing executable, spawn error), it returns
exit code 1, empty stdout, and the non-empty stderr string
formed from the exception type name, a colon-space, and the
exception message — naming the failure kind and message. -/
theorem run_ckout_failure (feature : String) (timeout : Nat)
    (spawn : String → Nat → ExecOutcome) (en em : String)
    (h : spawn feature timeout = ExecOutcome.exn en em) :
    run_ckout feature timeout spawn = (1, "", en ++ ": " ++ em) ∧
    (en ++ ": " ++ em) ≠ "" := by
  refine ⟨by unfold run_ckout; rw [h], ?_⟩
  intro hempty
  have hlen : (en ++ ": " ++ em).length = 0 := by rw [hempty]; rfl
  rw [String.length_append, String.length_append] at hlen
  rw [show (": ").length = 2 from rfl] at hlen
  omega

/-- Witness for C5: a missing executable outcome. -/
theorem run_ckout_failure_witness :
    run_ckout "Innovus_Impl_System" 30
        (fun _ _ => ExecOutcome.exn "FileNotFoundError" "No such file or directory") =
      (1, "", "FileNotFoundError" ++ ": " ++ "No such file or directory") ∧
    ("FileNotFoundError" ++ ": " ++ "No such file or directory") ≠ "" :=
  run_ckout_failure "Innovus_Impl_System" 30
    (fun _ _ => ExecOutcome.exn "FileNotFoundError" "No such file or directory")
    "FileNotFoundError" "No such file or directory" rfl

/-- C6: `gather` returns one record per input feature name, preserving the
input order (so duplicates are polled independently and produce their own
records), and every record of the batch carries the one timestamp sampled
from the clock before the iteration (`clock 0`). -/
theorem gather_one_record_per_feature (spawn : Nat → String → Nat → ExecOutcome)
    (clock : Nat → String) (features : List String) :
    (gather spawn clock features).map (fun r => r.feature) = features ∧
    (gather spawn clock features).map (fun r => r.timestamp) =
      List.replicate features.length (clock 0) :=
  ⟨gatherAux_map_feature spawn (clock 0) 0 features,
   gatherAux_map_timestamp spawn (clock 0) 0 features⟩

/-- C7: appending to a fresh log writes exactly one header row with columns
timestamp, feature, used, unused, total, then one data row per record in
input order, with unknown values written as empty cells; appending to an
existing log only adds the new data rows after the prior contents, leaving
the header and all prior rows unchanged. -/
theorem append_csv_spec (rows rows2 : List UsageRow) (prior : CsvFile)
    (f ts : String) (rc : Int) (e w : String) :
    append_csv none rows = csvHeaderRow :: rows.map rowOf ∧
    append_csv (some prior) rows2 = prior ++ rows2.map rowOf ∧
    rowOf { feature := f, total := none, used := none, unused := none,
            timestamp := ts, rc := rc, stderr := e, raw := w } = [ts, f, "", "", ""] := by
  refine ⟨?_, ?_, ?_⟩ <;> simp [append_csv, ensure_csv_header, rowOf, csvCellN, csvCellI]

/-- Counterexample to C8 as stated: a tool output reporting more seats in
use than issued (`Issued=5 Used=10`) yields a record whose `unused` field
is present and negative. -/
theorem gather_unused_negative :
    ((gather (fun _ _ _ => ExecOutcome.ok 0 (some "Issued=5 Used=10") (some ""))
        clockT ["F"]).map (fun r => r.unused)) = [some (-5 : Int)] ∧
    (-5 : Int) < 0 := by
  constructor
  · decide
  · decide

/-- C8 (amended): for every record produced by `gather`, the `unused`
field, whenever present, equals `total - used` as an integer, and it is
non-negative exactly when `used ≤ total` (it is negative in the
"Over-reported" state `used > total`, which the code deliberately keeps). -/
theorem gather_unused_sign (spawn : Nat → String → Nat → ExecOutcome)
    (clock : Nat → String) (feats : List String) (r : UsageRow) (v : Int)
    (h : r ∈ gather spawn clock feats) (hv : r.unused = some v) :
    ∃ t u : Nat, r.total = some t ∧ r.used = some u ∧
      v = (t : Int) - (u : Int) ∧ (0 ≤ v ↔ u ≤ t) := by
  have hd := (gatherAux_mem_spec spawn (clock 0) 0 feats r h).2
  rw [hv] at hd
  cases ht : r.total with
  | none =>
    cases hu : r.used with
    | none => rw [ht, hu] at hd; exact absurd hd (by simp)
    | some u => rw [ht, hu] at hd; exact absurd hd (by simp)
  | some t =>
    cases hu : r.used with
    | none => rw [ht, hu] at hd; exact absurd hd (by simp)
    | some u =>
      rw [ht, hu] at hd
      have hveq : v = (t : Int) - (u : Int) := by simpa using hd
      exact ⟨t, u, rfl, rfl, hveq, by omega⟩


/-- Witness for the amended C8 at a concrete over-reported record. -/
theorem gather_unused_sign_witness :
    ∃ t u : Nat, recB.total = some t ∧ recB.used = some u ∧
      (-5 : Int) = (t : Int) - (u : Int) ∧ (0 ≤ (-5 : Int) ↔ u ≤ t) :=
  gather_unused_sign spawnB clockT ["F"] recB (-5) (by decide) rfl

/-! Helper lemmas about the matcher, for claims C1, C2 and C10. -/


/-- A successful `matchF` returns exactly one capture per capturing group. -/
theorem matchF_length :
    ∀ (fuel : Nat) (toks : List Tok) (prev : Option Char) (s : List Char) (caps : List Nat),
      matchF fuel toks prev s = some caps → caps.length = countCaps toks := by
  intro fuel
  induction fuel with
  | zero => intro toks prev s caps h; simp [matchF] at h
  | succ fuel ih =>
    intro toks prev s caps h
    cases toks with
    | nil =>
      simp [matchF] at h
      simp [← h, countCaps]
    | cons tk rest =>
      cases tk with
      | lit c =>
        cases s with
        | nil => simp [matchF] at h
        | cons x s' =>
          rw [matchF] at h
          split at h
          · simpa [countCaps, List.countP_cons, isCapTok] using ih _ _ _ _ h
          · exact absurd h (by simp)
      | ws1 =>
        cases s with
        | nil => simp [matchF] at h
        | cons x s' =>
          rw [matchF] at h
          split at h
          · simpa [countCaps, List.countP_cons, isCapTok] using ih _ _ _ _ h
          · exact absurd h (by simp)
      | ws0 =>
        cases s with
        | nil =>
          rw [matchF] at h
          simpa [countCaps, List.countP_cons, isCapTok] using ih _ _ _ _ h
        | cons x s' =>
          rw [matchF] at h
          split at h
          · simpa [countCaps, List.countP_cons, isCapTok] using ih _ _ _ _ h
          · simpa [countCaps, List.countP_cons, isCapTok] using ih _ _ _ _ h
      | optSemi =>
        cases s with
        | nil =>
          rw [matchF] at h
          simpa [countCaps, List.countP_cons, isCapTok] using ih _ _ _ _ h
        | cons x s' =>
          rw [matchF] at h
          split at h
          · split at h
            · rename_i caps0 heq
              cases h
              simpa [countCaps, List.countP_cons, isCapTok] using ih _ _ _ _ heq
            · simpa [countCaps, List.countP_cons, isCapTok] using ih _ _ _ _ h
          · simpa [countCaps, List.countP_cons, isCapTok] using ih _ _ _ _ h
      | digits =>
        cases s with
        | nil => simp [matchF] at h
        | cons x s' =>
          rw [matchF] at h
          split at h
          · simpa [countCaps, List.countP_cons, isCapTok] using ih _ _ _ _ h
          · exact absurd h (by simp)
      | digAcc v =>
        cases s with
        | nil =>
          rw [matchF] at h
          rw [Option.map_eq_some'] at h
          obtain ⟨caps', hm, hc⟩ := h
          subst hc
          simpa [countCaps, List.countP_cons, isCapTok] using ih _ _ _ _ hm
        | cons x s' =>
          rw [matchF] at h
          split at h
          · simpa [countCaps, List.countP_cons, isCapTok] using ih _ _ _ _ h
          · rw [Option.map_eq_some'] at h
            obtain ⟨caps', hm, hc⟩ := h
            subst hc
            simpa [countCaps, List.countP_cons, isCapTok] using ih _ _ _ _ hm
      | lazyAny =>
        cases s with
        | nil =>
          rw [matchF] at h
          split at h
          · rename_i caps0 heq
            cases h
            simpa [countCaps, List.countP_cons, isCapTok] using ih _ _ _ _ heq
          · exact absurd h (by simp)
        | cons x s' =>
          rw [matchF] at h
          split at h
          · rename_i caps0 heq
            cases h
            simpa [countCaps, List.countP_cons, isCapTok] using ih _ _ _ _ heq
          · simpa [countCaps, List.countP_cons, isCapTok] using ih _ _ _ _ h
      | wordB =>
        cases s with
        | nil =>
          rw [matchF] at h
          split at h
          · simpa [countCaps, List.countP_cons, isCapTok] using ih _ _ _ _ h
          · exact absurd h (by simp)
        | cons x s' =>
          rw [matchF] at h
          split at h
          · simpa [countCaps, List.countP_cons, isCapTok] using ih _ _ _ _ h
          · exact absurd h (by simp)

/-- A successful `searchToks` returns one capture per capturing group. -/
theorem searchToks_length (toks : List Tok) :
    ∀ (prev : Option Char) (s : List Char) (caps : List Nat),
      searchToks toks prev s = some caps → caps.length = countCaps toks := by
  intro prev s
  induction s generalizing prev with
  | nil =>
    intro caps h
    rw [searchToks] at h
    split at h
    · rename_i heq; cases h; exact matchF_length _ _ _ _ _ heq
    · exact absurd h (by simp)
  | cons x s' ih =>
    intro caps h
    rw [searchToks] at h
    split at h
    · rename_i heq; cases h; exact matchF_length _ _ _ _ _ heq
    · exact ih _ _ h

/-- A successful `firstMatch` comes from one of the patterns in the list. -/
theorem firstMatch_mem :
    ∀ (ps : List (List Tok)) (s : List Char) (caps : List Nat),
      firstMatch ps s = some caps → ∃ p ∈ ps, searchToks p none s = some caps := by
  intro ps
  induction ps with
  | nil => intro s caps h; simp [firstMatch] at h
  | cons p rest ih =>
    intro s caps h
    rw [firstMatch] at h
    split at h
    · rename_i heq; cases h; exact ⟨p, by simp, heq⟩
    · obtain ⟨q, hq, hsq⟩ := ih s caps h
      exact ⟨q, by simp [hq], hsq⟩

/-! Claim theorems C1, C2 and C10. -/

/-- C1: the patterns of `COUNT_PATTERNS` are tried in order against the full
text and the first one whose (case-insensitive, newline-crossing) search
succeeds wins; `parse_usage` then returns exactly the two integers that
pattern captured, as `(total, used)`. -/
theorem parse_usage_first_match (s : String) (i : Fin COUNT_PATTERNS.length) (t u : Nat)
    (hfst : ∀ j : Fin COUNT_PATTERNS.length, j < i →
      searchToks (COUNT_PATTERNS.get j) none s.data = none)
    (hi : searchToks (COUNT_PATTERNS.get i) none s.data = some [t, u]) :
    parse_usage s = (some t, some u) := by
  fin_cases i
  · simp only [COUNT_PATTERNS, List.get] at hi
    simp [parse_usage, firstMatch, COUNT_PATTERNS, hi]
  · have h0 := hfst ⟨0, by decide⟩ (by decide)
    simp only [COUNT_PATTERNS, List.get] at hi h0
    simp [parse_usage, firstMatch, COUNT_PATTERNS, hi, h0]
  · have h0 := hfst ⟨0, by decide⟩ (by decide)
    have h1 := hfst ⟨1, by decide⟩ (by decide)
    simp only [COUNT_PATTERNS, List.get] at hi h0 h1
    simp [parse_usage, firstMatch, COUNT_PATTERNS, hi, h0, h1]

/-- Witness for C1: the second pattern wins on a mixed-case text whose two
numbers are separated by an intervening line. -/
theorem parse_usage_first_match_witness :
    parse_usage "total LICENSES: 25\nsome other text here\nIn Use: 5" = (some 25, some 5) :=
  parse_usage_first_match "total LICENSES: 25\nsome other text here\nIn Use: 5"
    ⟨1, by decide⟩ 25 5 (by decide) (by decide)

/-- C2: when no pattern of `COUNT_PATTERNS` matches, `parse_usage` falls
back to counting the lines that contain the case-insensitive word-bounded
phrase `in\s*use`: a positive count `N` yields `(unknown, N)`, a zero count
yields `(unknown, unknown)`. -/
theorem parse_usage_fallback (s : String)
    (h : ∀ p ∈ COUNT_PATTERNS, searchToks p none s.data = none) :
    parse_usage s = (none, if 0 < used_guess s then some (used_guess s) else none) := by
  have h1 := h pat1 (by simp [COUNT_PATTERNS])
  have h2 := h pat2 (by simp [COUNT_PATTERNS])
  have h3 := h pat3 (by simp [COUNT_PATTERNS])
  simp only [parse_usage, firstMatch, COUNT_PATTERNS, h1, h2, h3]
  split_ifs <;> rfl

/-- Witness for C2: two "in use" lines and no recognizable pattern. -/
theorem parse_usage_fallback_witness :
    parse_usage "Feature usage:\nlicA in use\nlicB IN  USE now\nnothing here" =
      (none, some 2) := by
  have h := parse_usage_fallback "Feature usage:\nlicA in use\nlicB IN  USE now\nnothing here"
    (by decide)
  rw [h]
  decide

/-- C10: `parse_usage` never returns a known total with an unknown used
count: every result is of shape (known, known), (unknown, known) or
(unknown, unknown). -/
theorem parse_usage_total_implies_used (s : String) (t : Nat)
    (h : (parse_usage s).1 = some t) :
    ∃ u : Nat, (parse_usage s).2 = some u := by
  cases hf : firstMatch COUNT_PATTERNS s.data with
  | none =>
    unfold parse_usage at h
    rw [hf] at h
    split at h
    · rename_i caps heq
      exact absurd heq (by simp)
    · split_ifs at h
  | some caps =>
    have hlen : caps.length = 2 := by
      obtain ⟨p, hp, hsp⟩ := firstMatch_mem _ _ _ hf
      have hl := searchToks_length p none s.data caps hsp
      simp only [COUNT_PATTERNS, List.mem_cons, List.not_mem_nil, or_false] at hp
      rcases hp with rfl | rfl | rfl <;> rw [hl] <;> decide
    obtain ⟨a, b, rfl⟩ := List.length_eq_two.mp hlen
    unfold parse_usage at h ⊢
    rw [hf] at h ⊢
    exact ⟨b, by simp⟩

/-- Witness for C10 at a text matched by the third pattern. -/
theorem parse_usage_total_implies_used_witness :
    ∃ u : Nat, (parse_usage "Issued=3 Used=2").2 = some u :=
  parse_usage_total_implies_used "Issued=3 Used=2" 3 (by decide)

/-! Substring machinery for claim C9: `hasSub pat l` decides whether `pat`
occurs contiguously in `l`, and `safePiece pat a` is a sufficient condition
for no occurrence of `pat` to begin inside the piece `a`. -/


/-- An initial segment of a concatenation is an initial segment of the left
part, or extends it. -/
theorem isPre_append (pat a b : List Char) (h : isPre pat (a ++ b) = true) :
    isPre pat a = true ∨ isPre a pat = true := by
  induction a generalizing pat with
  | nil => right; rfl
  | cons x t ih =>
    cases pat with
    | nil => left; rfl
    | cons p ps =>
      rw [List.cons_append, isPre, Bool.and_eq_true] at h
      obtain ⟨hpx, hrest⟩ := h
      rcases ih ps hrest with h1 | h1
      · left
        rw [isPre, Bool.and_eq_true]
        exact ⟨hpx, h1⟩
      · right
        rw [isPre, Bool.and_eq_true]
        refine ⟨?_, h1⟩
        rw [beq_iff_eq] at hpx ⊢
        exact hpx.symm

/-- Prepending a safe piece does not create or destroy an occurrence. -/
theorem safePiece_shift (pat a : List Char) (h : safePiece pat a = true) :
    ∀ b, hasSub pat (a ++ b) = hasSub pat b := by
  induction a with
  | nil => intro b; rfl
  | cons x t ih =>
    intro b
    simp only [safePiece, Bool.and_eq_true, Bool.not_eq_true'] at h
    obtain ⟨⟨h1, h2⟩, h3⟩ := h
    have hfalse : isPre pat (x :: (t ++ b)) = false := by
      cases hc : isPre pat (x :: (t ++ b)) with
      | false => rfl
      | true =>
        rcases isPre_append pat (x :: t) b (by simpa using hc) with hb | hb
        · rw [hb] at h1; cases h1
        · rw [hb] at h2; cases h2
    rw [List.cons_append, hasSub, hfalse, Bool.false_or]
    exact ih h3 b

/-- A piece whose characters all differ from the head of `pat` is safe. -/
theorem safePiece_of_head_notMem (c0 : Char) (pt a : List Char)
    (hc : ∀ c ∈ a, c ≠ c0) : safePiece (c0 :: pt) a = true := by
  induction a with
  | nil => rfl
  | cons x t ih =>
    have hx : (x == c0) = false :=
      beq_eq_false_iff_ne.mpr (fun he => hc x (by simp) he)
    have hx' : (c0 == x) = false :=
      beq_eq_false_iff_ne.mpr (fun he => hc x (by simp) he.symm)
    have hrec := ih (fun c hmem => hc c (by simp [hmem]))
    rw [safePiece, isPre, isPre, hx, hx', hrec]
    simp

/-- Every character produced by `escChar` differs from `<` and `>`. -/
theorem escChar_all (c : Char) :
    (escChar c).all (fun x => !(x == '<') && !(x == '>')) = true := by
  unfold escChar
  split_ifs with h1 h2 h3 h4 h5
  · decide
  · decide
  · decide
  · decide
  · decide
  · simp only [List.all_cons, List.all_nil, Bool.and_true]
    rw [Bool.not_eq_true] at h2 h3
    rw [h2, h3]
    rfl

/-- The characters `<` and `>` never occur in an escaped string. -/
theorem escape_notMem (s : String) : ∀ c ∈ (htmlEscape s).data, c ≠ '<' ∧ c ≠ '>' := by
  intro c hc
  have hx : c ∈ (s.data.map escChar).flatten := hc
  rw [List.mem_flatten] at hx
  obtain ⟨l, hl, hcl⟩ := hx
  rw [List.mem_map] at hl
  obtain ⟨c0, _, rfl⟩ := hl
  have := List.all_eq_true.mp (escChar_all c0) c hcl
  rw [Bool.and_eq_true, Bool.not_eq_true', Bool.not_eq_true', beq_eq_false_iff_ne,
    beq_eq_false_iff_ne] at this
  exact this

/-- Escaped text is a safe piece for the `<script>` probe. -/
theorem esc_safe (s : String) : safePiece scriptTag (htmlEscape s).data = true :=
  safePiece_of_head_notMem '<' "script>".data (htmlEscape s).data
    (fun c hmem => (escape_notMem s c hmem).1)

/-- Digit characters differ from `<`. -/
theorem digChar_ne_lt (m : Nat) : digChar m ≠ '<' := by
  unfold digChar
  split <;> decide

/-- Every character of a printed natural number is a digit character. -/
theorem natDigs_ne_lt : ∀ (fuel n : Nat), ∀ c ∈ natDigs fuel n, c ≠ '<' := by
  intro fuel
  induction fuel with
  | zero => intro n c hc; simp [natDigs] at hc
  | succ fuel ih =>
    intro n c hc
    rw [natDigs] at hc
    split at hc
    · rw [List.mem_singleton] at hc
      subst hc
      exact digChar_ne_lt n
    · rw [List.mem_append] at hc
      rcases hc with hc | hc
      · exact ih _ c hc
      · rw [List.mem_singleton] at hc
        subst hc
        exact digChar_ne_lt (n % 10)

/-- A printed natural number is a safe piece. -/
theorem natRepr_safe (n : Nat) : safePiece scriptTag (natRepr n).data = true :=
  safePiece_of_head_notMem '<' "script>".data (natDigs (n + 1) n) (natDigs_ne_lt (n + 1) n)

/-- A printed integer is a safe piece. -/
theorem intRepr_safe (i : Int) : safePiece scriptTag (intRepr i).data = true := by
  unfold intRepr
  split_ifs
  · refine safePiece_of_head_notMem '<' "script>".data _ ?_
    intro c hc
    have : c ∈ ('-' :: natDigs (i.natAbs + 1) i.natAbs) := hc
    rw [List.mem_cons] at this
    rcases this with rfl | hmem
    · decide
    · exact natDigs_ne_lt _ _ c hmem
  · exact natRepr_safe i.natAbs

/-- The displayed `used`/`total` cell is a safe piece. -/
theorem dispN_safe (o : Option Nat) : safePiece scriptTag (dispN o).data = true := by
  cases o with
  | none => decide
  | some v => exact natRepr_safe v

/-- The displayed `unused` cell is a safe piece. -/
theorem dispUnused_safe (u : Option Int) (t : Option Nat) :
    safePiece scriptTag (dispUnused u t).data = true := by
  cases u with
  | none =>
    rw [dispUnused, ite_self]
    decide
  | some v => exact intRepr_safe v

/-- The status CSS class is a safe piece. -/
theorem statusCls_safe (t u : Option Nat) :
    safePiece scriptTag (statusOf t u).1.data = true := by
  cases t <;> cases u <;> simp only [statusOf] <;> try decide
  split_ifs <;> decide

/-- The status text is a safe piece. -/
theorem statusTxt_safe (t u : Option Nat) :
    safePiece scriptTag (statusOf t u).2.data = true := by
  cases t <;> cases u <;> simp only [statusOf] <;> try decide
  split_ifs <;> decide

/-- Concatenating strings concatenates their character lists. -/
theorem strData_append (s t : String) : (s ++ t).data = s.data ++ t.data := by
  cases s
  cases t
  rfl

/-- One rendered table row cannot start an occurrence of `<script>`. -/
theorem rowHtml_shift (r : UsageRow) (b : List Char) :
    hasSub scriptTag ((rowHtml r).data ++ b) = hasSub scriptTag b := by
  have s1 : safePiece scriptTag ("<tr>\n  <td>" : String).data = true := by decide
  have s2 : safePiece scriptTag ("</td>\n  <td>" : String).data = true := by decide
  have s3 : safePiece scriptTag ("</td>\n  <td class=\"" : String).data = true := by decide
  have s4 : safePiece scriptTag ("\">" : String).data = true := by decide
  have s5 : safePiece scriptTag ("</td>\n</tr>\n" : String).data = true := by decide
  unfold rowHtml
  simp only [strData_append, List.append_assoc]
  rw [safePiece_shift _ _ s1, safePiece_shift _ _ (esc_safe r.feature),
    safePiece_shift _ _ s2, safePiece_shift _ _ (dispN_safe r.used),
    safePiece_shift _ _ s2, safePiece_shift _ _ (dispUnused_safe r.unused r.total),
    safePiece_shift _ _ s2, safePiece_shift _ _ (dispN_safe r.total),
    safePiece_shift _ _ s2, safePiece_shift _ _ (esc_safe r.timestamp),
    safePiece_shift _ _ s3, safePiece_shift _ _ (statusCls_safe r.total r.used),
    safePiece_shift _ _ s4, safePiece_shift _ _ (statusTxt_safe r.total r.used),
    safePiece_shift _ _ s5]

/-- The joined table body cannot start an occurrence of `<script>`. -/
theorem strJoin_rows_shift (rows : List UsageRow) (b : List Char) :
    hasSub scriptTag ((strJoin (rows.map rowHtml)).data ++ b) = hasSub scriptTag b := by
  induction rows with
  | nil => rfl
  | cons r rest ih =>
    simp only [List.map_cons, strJoin, strData_append, List.append_assoc]
    rw [rowHtml_shift]
    exact ih

/-- The document prologue cannot start an occurrence of `<script>`. -/
theorem htmlHead_shift (title : String) (b : List Char) :
    hasSub scriptTag ((htmlHead title).data ++ b) = hasSub scriptTag b := by
  have s1 : safePiece scriptTag headPre.data = true := by decide
  have s2 : safePiece scriptTag headMid.data = true := by decide
  have s3 : safePiece scriptTag headEnd.data = true := by decide
  unfold htmlHead
  simp only [strData_append, List.append_assoc]
  rw [safePiece_shift _ _ s1, safePiece_shift _ _ (esc_safe title),
    safePiece_shift _ _ s2, safePiece_shift _ _ (esc_safe title),
    safePiece_shift _ _ s3]

/-- C9: `render_html` escapes markup-special characters of the feature
name, the title and the timestamp (via `htmlEscape`, which never emits a
raw `<` or `>`) before embedding them, so the rendered document never
contains the eight-character substring `<script>`, for any record list and
any title — in particular a feature literally named `<script>` does not
appear unescaped in the output. -/
theorem render_html_no_script (rows : List UsageRow) (title : String) :
    hasSub scriptTag (render_html rows title).data = false ∧
    ∀ s : String,
      ((htmlEscape s).data.contains '<' || (htmlEscape s).data.contains '>') = false := by
  constructor
  · have sh : safePiece scriptTag tableHeader.data = true := by decide
    have sf : safePiece scriptTag tableFooter.data = true := by decide
    have sp : safePiece scriptTag pageFooter.data = true := by decide
    have key : hasSub scriptTag ((render_html rows title).data ++ []) = hasSub scriptTag [] := by
      unfold render_html
      simp only [strData_append, List.append_assoc]
      rw [htmlHead_shift, safePiece_shift _ _ sh, strJoin_rows_shift,
        safePiece_shift _ _ sf, safePiece_shift _ _ sp]
    rw [List.append_nil] at key
    rw [key]
    decide
  · intro s
    rw [Bool.or_eq_false_iff]
    constructor
    · show List.elem '<' (htmlEscape s).data = false
      rw [List.elem_eq_mem, decide_eq_false_iff_not]
      exact fun hmem => (escape_notMem s '<' hmem).1 rfl
    · show List.elem '>' (htmlEscape s).data = false
      rw [List.elem_eq_mem, decide_eq_false_iff_not]
      exact fun hmem => (escape_notMem s '>' hmem).2 rfl

end LicenseMonitor
